import Mathlib

/-!
Verification of the Vloop interaction engine (Go backend).

This file gives a shallow embedding of the parts of the backend that the
specification's testable properties are about: the video/like relational
state, the repository counter mutations, the like/unlike/follow write
paths with their MQ-fallback structure, the likes-ranked cursor
pagination, the popularity snapshot paging, the Redis lease release
script, the JWT auth gate's self-healing rule, and account logout.

Conventions of the embedding:
* machine integers become `Nat` (unsigned ids) or `Int` (signed counters);
* a database table becomes a `List` of row structures; a SQL query that
  carries an `ORDER BY` is modelled as operating on the table enumerated
  in that order (theorems carry the sortedness hypothesis explicitly);
* fallible Go functions returning `error` become `Except String`;
* a GORM transaction that returns an error is a rollback: the caller's
  state is unchanged and the `Except.error` is surfaced.
-/

namespace Vloop

/-- A row of the `videos` table (`video_entity.go`), restricted to the
columns the verified properties read: primary key `id`, `likes_count`
and `popularity` (both signed 64-bit in Go, embedded as `Int`). -/
structure Video where
  id : Nat
  likesCount : Int
  popularity : Int
  deriving Repr, DecidableEq, Inhabited

/-- `VideoRepository.ChangeLikesCount` (unnamed part_003, lines 124-137):
`UPDATE videos SET likes_count = GREATEST(likes_count + change, 0) WHERE id = ?`. -/
def ChangeLikesCount (videos : List Video) (id : Nat) (change : Int) : List Video :=
  videos.map fun v =>
    if v.id == id then { v with likesCount := max (v.likesCount + change) 0 } else v

/-- `VideoRepository.ChangePopularity` (unnamed part_003, lines 139-152):
`UPDATE videos SET popularity = GREATEST(popularity + change, 0) WHERE id = ?`. -/
def ChangePopularity (videos : List Video) (id : Nat) (change : Int) : List Video :=
  videos.map fun v =>
    if v.id == id then { v with popularity := max (v.popularity + change) 0 } else v

/-- The relational state the like subsystem touches: the `videos` table
and the `likes` table. A like row is its unique key `(video_id, account_id)`;
the surrogate primary key and timestamp play no role in the verified
properties. -/
structure DBState where
  videos : List Video
  likes : List (Nat × Nat)
  deriving Repr, DecidableEq, Inhabited

/-- `LikeService.Unlike` fallback transaction (`like_service.go`, lines
207-232): delete the like row; if no row was removed the transaction
aborts with `user has not liked this video`; otherwise
`likes_count = GREATEST(likes_count - 1, 0)` and
`popularity = GREATEST(popularity - 1, 0)`. -/
def unlikeFallbackTx (s : DBState) (videoID accountID : Nat) : Except String DBState :=
  if s.likes.contains (videoID, accountID) then
    Except.ok
      { videos := ChangePopularity (ChangeLikesCount s.videos videoID (-1)) videoID (-1)
        likes := s.likes.filter fun p => !(p == (videoID, accountID)) }
  else
    Except.error "user has not liked this video"

/-- The counter mutations claim C4 ranges over: the two repository
deltas and the unlike fallback transaction. -/
inductive CounterOp where
  | changeLikes (id : Nat) (change : Int)
  | changePop (id : Nat) (change : Int)
  | unlikeFb (videoID accountID : Nat)
  deriving Repr, DecidableEq

/-- Apply one counter mutation to the database state. A failed
transaction rolls back, leaving the state unchanged. -/
def applyCounterOp (s : DBState) : CounterOp → DBState
  | .changeLikes id c => { s with videos := ChangeLikesCount s.videos id c }
  | .changePop id c => { s with videos := ChangePopularity s.videos id c }
  | .unlikeFb v a =>
    match unlikeFallbackTx s v a with
    | .ok s2 => s2
    | .error _ => s

/-- The invariant of claim C4: every video row has non-negative
`likes_count` and `popularity`. -/
def countersNonneg (s : DBState) : Prop :=
  ∀ v ∈ s.videos, 0 ≤ v.likesCount ∧ 0 ≤ v.popularity

instance (s : DBState) : Decidable (countersNonneg s) :=
  inferInstanceAs (Decidable (∀ v ∈ s.videos, 0 ≤ v.likesCount ∧ 0 ≤ v.popularity))

theorem changeLikesCount_nonneg {videos : List Video} {id : Nat} {c : Int}
    (h : ∀ v ∈ videos, 0 ≤ v.likesCount ∧ 0 ≤ v.popularity) :
    ∀ v ∈ ChangeLikesCount videos id c, 0 ≤ v.likesCount ∧ 0 ≤ v.popularity := by
  intro v hv
  rcases List.mem_map.1 hv with ⟨w, hw, rfl⟩
  rcases h w hw with ⟨h1, h2⟩
  by_cases hid : w.id == id <;> simp [hid, h1, h2, le_max_right]

theorem changePopularity_nonneg {videos : List Video} {id : Nat} {c : Int}
    (h : ∀ v ∈ videos, 0 ≤ v.likesCount ∧ 0 ≤ v.popularity) :
    ∀ v ∈ ChangePopularity videos id c, 0 ≤ v.likesCount ∧ 0 ≤ v.popularity := by
  intro v hv
  rcases List.mem_map.1 hv with ⟨w, hw, rfl⟩
  rcases h w hw with ⟨h1, h2⟩
  by_cases hid : w.id == id <;> simp [hid, h1, h2, le_max_right]

theorem applyCounterOp_nonneg {s : DBState} (op : CounterOp)
    (h : countersNonneg s) : countersNonneg (applyCounterOp s op) := by
  cases op with
  | changeLikes id c => exact changeLikesCount_nonneg h
  | changePop id c => exact changePopularity_nonneg h
  | unlikeFb v a =>
    unfold applyCounterOp unlikeFallbackTx
    by_cases hmem : s.likes.contains (v, a)
    · simp only [hmem, if_pos]
      exact changePopularity_nonneg (changeLikesCount_nonneg h)
    · simp only [hmem, if_neg, not_false_iff]
      exact h

/-- C4: after any sequence of repository counter mutations
(`ChangeLikesCount`, `ChangePopularity`) and unlike-fallback
transactions starting from a state whose counters are non-negative,
every video still satisfies `likes_count ≥ 0` and `popularity ≥ 0`:
the `GREATEST(col + Δ, 0)` clamp keeps a decremented zero counter at
zero instead of letting it go negative. -/
theorem C4_counters_never_negative (s : DBState) (ops : List CounterOp)
    (h : countersNonneg s) : countersNonneg (ops.foldl applyCounterOp s) := by
  induction ops generalizing s with
  | nil => exact h
  | cons op rest ih => exact ih _ (applyCounterOp_nonneg op h)

/-- Witness for C4: a decrement on a video whose counters are both zero
keeps them at zero. -/
theorem C4_counters_never_negative_witness :
    countersNonneg ⟨[⟨1, 0, 0⟩], [(1, 2)]⟩ ∧
      countersNonneg
        ([CounterOp.changeLikes 1 (-1), CounterOp.changePop 1 (-3),
          CounterOp.unlikeFb 1 2].foldl applyCounterOp ⟨[⟨1, 0, 0⟩], [(1, 2)]⟩) :=
  ⟨by decide, C4_counters_never_negative ⟨[⟨1, 0, 0⟩], [(1, 2)]⟩ _ (by decide)⟩

/-! ### Feed handler limit validation (claim C8) -/

/-- Outcome of a feed handler's limit-handling step: either the request
proceeds with an (possibly replaced) limit, or it is rejected with an
HTTP status. -/
inductive HandlerOutcome where
  | proceed (limit : Int)
  | reject (status : Nat)
  deriving Repr, DecidableEq

/-- `FeedHandler.ListLatest` limit step (`feed/handler.go`, lines 59-62):
`if req.Limit <= 0 || req.Limit > 50 { req.Limit = 10 }` — the request
always proceeds; an out-of-range limit is replaced by the default 10. -/
def ListLatestLimitStep (reqLimit : Int) : HandlerOutcome :=
  .proceed (if reqLimit ≤ 0 ∨ reqLimit > 50 then 10 else reqLimit)

/-- `FeedHandler.ListLikesCount` limit step (`feed/handler.go`, lines 125-128). -/
def ListLikesCountLimitStep (reqLimit : Int) : HandlerOutcome :=
  .proceed (if reqLimit ≤ 0 ∨ reqLimit > 50 then 10 else reqLimit)

/-- `FeedHandler.ListByFollowing` limit step (`feed/handler.go`, lines 216-219). -/
def ListByFollowingLimitStep (reqLimit : Int) : HandlerOutcome :=
  .proceed (if reqLimit ≤ 0 ∨ reqLimit > 50 then 10 else reqLimit)

/-- `FeedHandler.ListByPopularity` limit step (`feed/handler.go`, lines 295-298). -/
def ListByPopularityLimitStep (reqLimit : Int) : HandlerOutcome :=
  .proceed (if reqLimit ≤ 0 ∨ reqLimit > 50 then 10 else reqLimit)

/-- C8 counterexample: a request with limit 51 (out of range) is NOT
rejected with HTTP 400 by any of the four feed handlers; each proceeds
with the default limit 10. -/
theorem C8_limit_out_of_range_not_rejected :
    ListLatestLimitStep 51 = .proceed 10 ∧
      ListLikesCountLimitStep 51 = .proceed 10 ∧
      ListByFollowingLimitStep 51 = .proceed 10 ∧
      ListByPopularityLimitStep 51 = .proceed 10 ∧
      ListLatestLimitStep 51 ≠ .reject 400 := by
  refine ⟨by decide, by decide, by decide, by decide, by decide⟩

/-- C8 amended: on each of the four feed endpoints an out-of-range limit
(non-positive or greater than 50) is not a validation error; the handler
silently replaces it with the default 10 and the request proceeds. -/
theorem C8_limit_out_of_range_clamped (reqLimit : Int)
    (h : reqLimit ≤ 0 ∨ reqLimit > 50) :
    ListLatestLimitStep reqLimit = .proceed 10 ∧
      ListLikesCountLimitStep reqLimit = .proceed 10 ∧
      ListByFollowingLimitStep reqLimit = .proceed 10 ∧
      ListByPopularityLimitStep reqLimit = .proceed 10 := by
  refine ⟨?_, ?_, ?_, ?_⟩ <;>
    simp [ListLatestLimitStep, ListLikesCountLimitStep,
      ListByFollowingLimitStep, ListByPopularityLimitStep, h]

/-- Witness for the amended C8 at the concrete out-of-range limit 0. -/
theorem C8_limit_out_of_range_clamped_witness :
    ListLatestLimitStep 0 = .proceed 10 ∧
      ListLikesCountLimitStep 0 = .proceed 10 ∧
      ListByFollowingLimitStep 0 = .proceed 10 ∧
      ListByPopularityLimitStep 0 = .proceed 10 :=
  C8_limit_out_of_range_clamped 0 (Or.inl (by decide))

/-! ### Social follow write path (claim C1) -/

/-- Observable effects of one `SocialService.Follow` call: whether the
MQ publish reported success, and whether the direct database write
(`repo.Follow`) was performed. -/
structure FollowOutcome where
  published : Bool
  directDBWrite : Bool
  deriving Repr, DecidableEq

/-- `SocialService.Follow` (`social/handler.go`, lines 202-236): validate
both accounts, reject self-follow and duplicate follow; then call
`socialMQ.Follow` — whose returned error is DISCARDED — and
unconditionally finish with `return s.repo.Follow(ctx, social)`.
The publish result (`publishOk`) therefore never gates the direct write. -/
def Follow (followerExists vloggerExists : Bool) (followerID vloggerID : Nat)
    (isFollowed : Bool) (publishOk : Bool) : Except String FollowOutcome :=
  if !followerExists then Except.error "record not found"
  else if !vloggerExists then Except.error "record not found"
  else if followerID == vloggerID then Except.error "can not follow self"
  else if isFollowed then Except.error "already followed"
  else Except.ok { published := publishOk, directDBWrite := true }

/-- C1 failing case: a valid follow (both accounts exist, not self, not
already followed) whose MQ publish SUCCEEDS still performs the direct
database write before returning success — the publish result is
discarded at the call site, so the direct write is unconditional,
contradicting "if the event publish succeeds, no direct write is
performed on that target". -/
theorem C1_follow_direct_write_despite_publish :
    Follow true true 1 2 false true =
      Except.ok { published := true, directDBWrite := true } := by
  rfl

/-! ### Like fallback transaction (claim C3) -/

/-- `LikeService.Like` fallback transaction (`like_service.go`, lines
102-134), entered when the like-MQ publish failed: inside the
transaction re-check the video exists, `tx.Create(like)` — a MySQL
1062 duplicate-key error is mapped to the error
`user has liked this video`, aborting (rolling back) the transaction —
then `likes_count = likes_count + 1` and `popularity = popularity + 1`
(both unclamped on this path). -/
def likeFallbackTx (s : DBState) (videoID accountID : Nat) : Except String DBState :=
  if !(s.videos.any fun v => v.id == videoID) then Except.error "video not found"
  else if s.likes.contains (videoID, accountID) then
    Except.error "user has liked this video"
  else
    Except.ok
      { videos :=
          (s.videos.map fun v =>
              if v.id == videoID then { v with likesCount := v.likesCount + 1 } else v).map
            fun v =>
              if v.id == videoID then { v with popularity := v.popularity + 1 } else v
        likes := (videoID, accountID) :: s.likes }

/-- C3 counterexample: in the fallback path, inserting a like row that
already exists for the same `(video_id, account_id)` is an ERROR, not a
success no-op: the transaction aborts with `user has liked this video`
and the API call does not return success. -/
theorem C3_duplicate_fallback_insert_is_error :
    likeFallbackTx ⟨[⟨1, 3, 3⟩], [(1, 2)]⟩ 1 2 =
      Except.error "user has liked this video" := by
  rfl

/-- C3 amended: whenever the target video exists and the like row for
`(videoID, accountID)` already exists, the like fallback transaction
aborts with the error `user has liked this video` (rolling back, so no
row is created and no counter changes), instead of being a silent
success no-op. -/
theorem C3_duplicate_fallback_insert_aborts (s : DBState) (videoID accountID : Nat)
    (hvid : s.videos.any (fun v => v.id == videoID) = true)
    (hdup : s.likes.contains (videoID, accountID) = true) :
    likeFallbackTx s videoID accountID = Except.error "user has liked this video" := by
  have hdup2 : (videoID, accountID) ∈ s.likes := by simpa using hdup
  simp [likeFallbackTx, hvid, hdup2]

/-- Witness for the amended C3 at a concrete state. -/
theorem C3_duplicate_fallback_insert_aborts_witness :
    likeFallbackTx ⟨[⟨5, 0, 0⟩], [(5, 9)]⟩ 5 9 =
      Except.error "user has liked this video" :=
  C3_duplicate_fallback_insert_aborts ⟨[⟨5, 0, 0⟩], [(5, 9)]⟩ 5 9 (by decide) (by decide)

/-! ### JWT auth gate (claim C5) -/

/-- A row of the `accounts` table restricted to the columns the auth
gate reads: `id` and `current_token` (field `Token` in Go). -/
structure AccountRow where
  id : Nat
  token : String
  deriving Repr, DecidableEq, Inhabited

/-- Decision of the auth gate. -/
inductive AuthDecision where
  | admitted
  | rejectedRevoked
  deriving Repr, DecidableEq

/-- Result of one `check` run: the decision, plus the cache write it
performed (`some (key, value, ttlHours)` for a `SetBytes`, `none` when
nothing was written). -/
structure CheckResult where
  decision : AuthDecision
  cacheWrite : Option (String × String × Nat)
  deriving Repr, DecidableEq

/-- `check` (`middleware/jwt/jwt.go`, lines 71-112), after signature and
expiry verification already succeeded, for the account id carried in
the token claims: if the cache has an entry under
`account:{claims.AccountID}`, admit exactly when it equals the
presented token (else `token has been revoked`); on a cache miss load
the account row and admit iff its stored token is non-empty and equals
the presented token, then write the token back into the cache under the
same key with TTL 24h. -/
def check (claimsAccountID : Nat) (cacheEntry : Option String)
    (dbRow : Option AccountRow) (tokenString : String) : CheckResult :=
  match cacheEntry with
  | some b => if b ≠ tokenString then ⟨.rejectedRevoked, none⟩ else ⟨.admitted, none⟩
  | none =>
    match dbRow with
    | none => ⟨.rejectedRevoked, none⟩
    | some a =>
      if a.token = "" ∨ a.token ≠ tokenString then ⟨.rejectedRevoked, none⟩
      else ⟨.admitted, some ("account:" ++ toString claimsAccountID, tokenString, 24)⟩

/-- C5: on a cache miss with the account row present and a non-empty
presented token, the gate admits if and only if the stored
`current_token` equals the presented token, and on admission it writes
the token into the cache under `account:{id}` with TTL 24h — so with an
empty cache but a consistent DB a valid token admits on the first
request and the cache entry exists afterwards. -/
theorem C5_auth_self_healing (id : Nat) (a : AccountRow) (tok : String)
    (htok : tok ≠ "") :
    ((check id none (some a) tok).decision = .admitted ↔ a.token = tok) ∧
      (a.token = tok →
        (check id none (some a) tok).cacheWrite =
          some ("account:" ++ toString id, tok, 24)) := by
  by_cases h : a.token = tok
  · subst h
    simp [check, htok]
  · simp [check, h]

/-- Witness for C5: account 7 whose stored token is `T`, presented `T`. -/
theorem C5_auth_self_healing_witness :
    ((check 7 none (some ⟨7, "T"⟩) "T").decision = .admitted ↔
        (⟨7, "T"⟩ : AccountRow).token = "T") ∧
      (check 7 none (some ⟨7, "T"⟩) "T").cacheWrite = some ("account:7", "T", 24) :=
  ⟨(C5_auth_self_healing 7 ⟨7, "T"⟩ "T" (by decide)).1,
    (C5_auth_self_healing 7 ⟨7, "T"⟩ "T" (by decide)).2 rfl⟩

/-! ### Lease release (claim C6) -/

/-- Redis string keyspace as an association list (first binding wins). -/
def kvGet (store : List (String × String)) (key : String) : Option String :=
  (store.find? fun p => p.1 == key).map (·.2)

/-- The `unlockScript` Lua script (unnamed part_006, lines 162-168) run
by `Client.Unlock`: `GET key`; if it equals the supplied token, `DEL
key`; otherwise do nothing (return 0). -/
def unlockScriptRun (store : List (String × String)) (key token : String) :
    List (String × String) :=
  match kvGet store key with
  | some v => if v = token then store.filter (fun p => !(p.1 == key)) else store
  | none => store

/-- Which Go context a call site passes. -/
inductive CtxKind where
  | background
  | request
  deriving Repr, DecidableEq

/-- `FeedService.ListLatest` releases its lease with
`f.cache.Unlock(context.Background(), lockKey, token)`
(`feed/handler.go`, line 496): a fresh background context that the
caller's request context cannot cancel. -/
def listLatestUnlockCtx : CtxKind := .background

theorem kvGet_filter_ne (store : List (String × String)) (key : String) :
    kvGet (store.filter fun p => !(p.1 == key)) key = none := by
  induction store with
  | nil => rfl
  | cons p rest ih =>
    by_cases h : p.1 == key
    · simp [kvGet, List.filter, h]
    · simp [kvGet, List.filter, h]

/-- C6: releasing a lease with a token different from the value stored
under the key leaves the store unchanged (the holder's entry is not
deleted); releasing with the matching token deletes the key; and the
`ListLatest` release call runs on a fresh background context that a
caller timeout cannot cancel. -/
theorem C6_lease_release_safety (store : List (String × String)) (key v token : String)
    (hstored : kvGet store key = some v) :
    (v ≠ token → unlockScriptRun store key token = store) ∧
      (v = token → kvGet (unlockScriptRun store key token) key = none) ∧
      listLatestUnlockCtx = .background := by
  refine ⟨fun hne => ?_, fun heq => ?_, rfl⟩
  · simp [unlockScriptRun, hstored, hne]
  · subst heq
    simp only [unlockScriptRun, hstored, if_pos rfl]
    exact kvGet_filter_ne store key

/-- Witness for C6: a stale-token release is a no-op and a matching
release deletes the key, on the concrete store `[("lock:feed", "a")]`. -/
theorem C6_lease_release_safety_witness :
    unlockScriptRun [("lock:feed", "a")] "lock:feed" "b" = [("lock:feed", "a")] ∧
      kvGet (unlockScriptRun [("lock:feed", "a")] "lock:feed" "a") "lock:feed" = none :=
  ⟨(C6_lease_release_safety [("lock:feed", "a")] "lock:feed" "a" "b" rfl).1 (by decide),
    (C6_lease_release_safety [("lock:feed", "a")] "lock:feed" "a" "a" rfl).2.1 rfl⟩

/-! ### Account logout (claim C10) -/

/-- `AccountRepository.FindByID` (unnamed part_004): first row with the
given primary key. -/
def accountFindByID (accounts : List AccountRow) (id : Nat) : Option AccountRow :=
  accounts.find? fun a => a.id == id

/-- `AccountRepository.Logout` (unnamed part_004, lines 81-86):
`UPDATE accounts SET token = "" WHERE id = ?`. -/
def repoLogout (accounts : List AccountRow) (id : Nat) : List AccountRow :=
  accounts.map fun a => if a.id == id then { a with token := "" } else a

/-- `Client.Del` on the token cache: remove the binding for `key`. -/
def cacheDel (cache : List (String × String)) (key : String) : List (String × String) :=
  cache.filter fun p => !(p.1 == key)

/-- `AccountService.Logout` (`account/service.go`, lines 244-268): load
the account (error if absent); if its stored token is already empty,
return success immediately with no cache or DB mutation; otherwise
delete `account:{id}` from the cache and blank the DB token. -/
def Logout (accounts : List AccountRow) (cache : List (String × String))
    (accountID : Nat) : Except String (List AccountRow × List (String × String)) :=
  match accountFindByID accounts accountID with
  | none => Except.error "record not found"
  | some a =>
    if a.token = "" then Except.ok (accounts, cache)
    else Except.ok (repoLogout accounts a.id, cacheDel cache ("account:" ++ toString a.id))

theorem find?_id_map (f : AccountRow → AccountRow) (hf : ∀ a, (f a).id = a.id)
    (accounts : List AccountRow) (j : Nat) :
    (accounts.map f).find? (fun a => a.id == j) =
      (accounts.find? fun a => a.id == j).map f := by
  induction accounts with
  | nil => rfl
  | cons a rest ih =>
    simp only [List.map_cons]
    by_cases haj : (a.id == j) = true
    · rw [List.find?_cons_of_pos _ (by rw [hf]; exact haj)]
      simp [List.find?, haj]
    · rw [List.find?_cons_of_neg _ (by rw [hf]; exact haj)]
      simp [List.find?, haj, ih]

theorem accountFindByID_repoLogout (accounts : List AccountRow) (i j : Nat) :
    accountFindByID (repoLogout accounts i) j =
      (accountFindByID accounts j).map
        fun a => if a.id == i then { a with token := "" } else a := by
  apply find?_id_map
  intro a
  by_cases h : a.id = i <;> simp [h]

/-- C10: logout is idempotent: if the account row exists and its stored
token is already empty, `Logout` returns success leaving both the
accounts table and the cache untouched; and whatever a successful
`Logout` returns, running `Logout` again from that state succeeds and
changes nothing. -/
theorem C10_logout_idempotent (accounts : List AccountRow)
    (cache : List (String × String)) (accountID : Nat) (a : AccountRow)
    (hfind : accountFindByID accounts accountID = some a) :
    (a.token = "" → Logout accounts cache accountID = Except.ok (accounts, cache)) ∧
      ∀ accounts2 cache2,
        Logout accounts cache accountID = Except.ok (accounts2, cache2) →
        Logout accounts2 cache2 accountID = Except.ok (accounts2, cache2) := by
  constructor
  · intro htok
    simp [Logout, hfind, htok]
  · intro accounts2 cache2 h
    by_cases htok : a.token = ""
    · have h2 := h
      simp [Logout, hfind, htok] at h2
      obtain ⟨rfl, rfl⟩ := h2
      simp [Logout, hfind, htok]
    · have h2 := h
      simp [Logout, hfind, htok] at h2
      obtain ⟨rfl, rfl⟩ := h2
      have hfind2 : accountFindByID (repoLogout accounts a.id) accountID =
          some { a with token := "" } := by
        rw [accountFindByID_repoLogout, hfind]
        simp
      simp [Logout, hfind2]

/-- Witness for C10: logging out account 1 whose token is already empty
succeeds and leaves the state unchanged. -/
theorem C10_logout_idempotent_witness :
    Logout [⟨1, ""⟩] [] 1 = Except.ok ([⟨1, ""⟩], []) :=
  (C10_logout_idempotent [⟨1, ""⟩] [] 1 ⟨1, ""⟩ rfl).1 rfl

/-! ### Like worker idempotence (claim C7) -/

/-- `VideoRepository.IsExist` (unnamed part_003, lines 98-107): does a
video row with this id exist. -/
def IsExist (videos : List Video) (id : Nat) : Bool :=
  videos.any fun v => v.id == id

/-- `LikeRepository.LikeIgnoreDuplicate` (`like_repo.go`, lines 47-61):
insert the like row; a unique-constraint conflict (row already present)
is not an error and reports `created = false`; zero ids are rejected as
a silent no-op. Returns `(created, table after the call)`. -/
def LikeIgnoreDuplicate (likes : List (Nat × Nat)) (videoID accountID : Nat) :
    Bool × List (Nat × Nat) :=
  if videoID == 0 || accountID == 0 then (false, likes)
  else if likes.contains (videoID, accountID) then (false, likes)
  else (true, (videoID, accountID) :: likes)

/-- `LikeWorker.applyLike` (`worker/likeworker.go`, lines 185-222):
verify the video exists (absent ⇒ drop); insert the like row ignoring a
duplicate; only if a NEW row was created, `ChangeLikesCount +1` and
`ChangePopularity +1`. -/
def applyLike (s : DBState) (userID videoID : Nat) : DBState :=
  if !(IsExist s.videos videoID) then s
  else
    match LikeIgnoreDuplicate s.likes videoID userID with
    | (false, likes2) => { s with likes := likes2 }
    | (true, likes2) =>
      { videos := ChangePopularity (ChangeLikesCount s.videos videoID 1) videoID 1
        likes := likes2 }

theorem isExist_changeLikesCount (videos : List Video) (id n : Nat) (c : Int) :
    IsExist (ChangeLikesCount videos id c) n = IsExist videos n := by
  simp only [IsExist, ChangeLikesCount, List.any_map]
  apply congrArg
  funext v
  by_cases h : v.id = id <;> simp [h]

theorem isExist_changePopularity (videos : List Video) (id n : Nat) (c : Int) :
    IsExist (ChangePopularity videos id c) n = IsExist videos n := by
  simp only [IsExist, ChangePopularity, List.any_map]
  apply congrArg
  funext v
  by_cases h : v.id = id <;> simp [h]

theorem applyLike_idem (s : DBState) (u v : Nat) :
    applyLike (applyLike s u v) u v = applyLike s u v := by
  by_cases hex : IsExist s.videos v = true
  · by_cases h0 : (v == 0 || u == 0) = true
    · have h1 : applyLike s u v = s := by
        simp [applyLike, hex, LikeIgnoreDuplicate, h0]
      rw [h1, h1]
    · by_cases hdup : (v, u) ∈ s.likes
      · have h1 : applyLike s u v = s := by
          simp [applyLike, hex, LikeIgnoreDuplicate, h0, hdup]
        rw [h1, h1]
      · have h1 : applyLike s u v =
            ⟨ChangePopularity (ChangeLikesCount s.videos v 1) v 1, (v, u) :: s.likes⟩ := by
          simp [applyLike, hex, LikeIgnoreDuplicate, h0, hdup]
        rw [h1]
        have hex2 : IsExist (ChangePopularity (ChangeLikesCount s.videos v 1) v 1) v = true := by
          rw [isExist_changePopularity, isExist_changeLikesCount]
          exact hex
        simp [applyLike, hex2, LikeIgnoreDuplicate, h0]
  · have h1 : applyLike s u v = s := by
      simp [applyLike, hex]
    rw [h1, h1]

/-- C7: the like worker is idempotent: applying the same like event
`n ≥ 1` times yields the same terminal state as applying it once — a
replay finds the row already present, reports no new row created, and
performs no counter update. -/
theorem C7_like_worker_idempotent (s : DBState) (u v : Nat) (n : Nat) (hn : 1 ≤ n) :
    (fun t => applyLike t u v)^[n] s = applyLike s u v := by
  obtain ⟨m, rfl⟩ : ∃ m, n = m + 1 := ⟨n - 1, by omega⟩
  induction m with
  | zero => simp
  | succ k ih =>
    rw [Function.iterate_succ_apply, Function.iterate_succ_apply] at *
    calc (fun t => applyLike t u v)^[k]
          ((fun t => applyLike t u v) ((fun t => applyLike t u v) s))
        = (fun t => applyLike t u v)^[k] ((fun t => applyLike t u v) s) := by
          simp only [applyLike_idem]
      _ = applyLike s u v := ih (by omega)

/-- Witness for C7: replaying a like event twice on a one-video state
equals applying it once. -/
theorem C7_like_worker_idempotent_witness :
    (fun t => applyLike t 2 1)^[2] ⟨[⟨1, 0, 0⟩], []⟩ =
      applyLike ⟨[⟨1, 0, 0⟩], []⟩ 2 1 :=
  C7_like_worker_idempotent ⟨[⟨1, 0, 0⟩], []⟩ 2 1 2 (by decide)

/-! ### Likes-ranked cursor pagination (claim C2) -/

/-- Composite cursor of the likes-ranked listing (unnamed part_001,
lines 52-57): the previous page's last row's `(likes_count, id)`. -/
structure LikesCountCursor where
  likesCount : Int
  id : Nat
  deriving Repr, DecidableEq

/-- The SQL cursor condition of `ListLikesCountWithCursor`
(`feed/repo.go`, lines 98-104):
`(likes_count < L) OR (likes_count = L AND id < I)`. -/
def cursorPred (c : LikesCountCursor) (v : Video) : Bool :=
  decide (v.likesCount < c.likesCount) ||
    (v.likesCount == c.likesCount && decide (v.id < c.id))

/-- The WHERE clause is attached only when a cursor is supplied
(`cursor != nil` in Go). -/
def applyCursor (rows : List Video) : Option LikesCountCursor → List Video
  | none => rows
  | some c => rows.filter (cursorPred c)

/-- `FeedRepository.ListLikesCountWithCursor` (`feed/repo.go`, lines
87-111): `SELECT * FROM videos [WHERE cursor] ORDER BY likes_count
DESC, id DESC LIMIT limit`. The parameter `rows` is the table contents
enumerated in the query's total order; theorems state that sortedness
explicitly as a `Pairwise` hypothesis. -/
def ListLikesCountWithCursor (rows : List Video) (limit : Nat)
    (cursor : Option LikesCountCursor) : List Video :=
  (applyCursor rows cursor).take limit

/-- Next-page cursor computed by `FeedService.ListLikesCount`
(`feed/handler.go`, lines 599-606): the last returned row's
`(likes_count, id)`. -/
def cursorOf (v : Video) : LikesCountCursor :=
  ⟨v.likesCount, v.id⟩

/-- `v` sorts strictly after `a` in `(likes_count DESC, id DESC)`,
which is exactly "v satisfies the cursor built from a". -/
def cursorAfter (a v : Video) : Prop :=
  cursorPred (cursorOf a) v = true

instance : DecidableRel cursorAfter := fun a v =>
  inferInstanceAs (Decidable (cursorPred (cursorOf a) v = true))

/-- The client paging loop of claim C2: call the listing, and while a
page comes back non-empty continue from the returned cursor pair
`(next_likes_count_before, next_id_before)`; `fuel` bounds the number
of round trips. -/
def collectLikesPages (rows : List Video) (limit : Nat) :
    Nat → Option LikesCountCursor → List Video
  | 0, _ => []
  | fuel + 1, cursor =>
    match (ListLikesCountWithCursor rows limit cursor).getLast? with
    | none => []
    | some last =>
      ListLikesCountWithCursor rows limit cursor ++
        collectLikesPages rows limit fuel (some (cursorOf last))

theorem cursorPred_irrefl (v : Video) : cursorPred (cursorOf v) v = false := by
  simp [cursorPred, cursorOf]

theorem cursorPred_asymm {a b : Video} (h : cursorPred (cursorOf a) b = true) :
    cursorPred (cursorOf b) a = false := by
  have h1 : b.likesCount < a.likesCount ∨
      (b.likesCount = a.likesCount ∧ b.id < a.id) := by
    simpa [cursorPred, cursorOf] using h
  cases hb : cursorPred (cursorOf b) a with
  | false => rfl
  | true =>
    have h2 : a.likesCount < b.likesCount ∨
        (a.likesCount = b.likesCount ∧ a.id < b.id) := by
      simpa [cursorPred, cursorOf] using hb
    exfalso
    omega

/-- If a sorted run `front ++ rest` ends its front segment at `last`,
the cursor built from `last` filters the whole run down to exactly
`rest`: everything at or before `last` fails the cursor condition and
everything after it passes. -/
theorem filter_cursorOf_last (front : List Video) :
    ∀ (rows rest : List Video), rows.Pairwise cursorAfter →
      rows = front ++ rest → ∀ last : Video, front.getLast? = some last →
      rows.filter (cursorPred (cursorOf last)) = rest := by
  induction front with
  | nil => intro rows rest hs heq last hlast; cases hlast
  | cons f fs ih =>
    intro rows rest hs heq last hlast
    subst heq
    rcases List.pairwise_cons.1 hs with ⟨hf, htail⟩
    cases fs with
    | nil =>
      have hlf : f = last := by simpa using hlast
      subst hlf
      rw [List.cons_append, List.nil_append,
        List.filter_cons_of_neg (by simp [cursorPred_irrefl])]
      exact List.filter_eq_self.2 fun b hb => hf b (by simpa using hb)
    | cons g gs =>
      have hlast2 : (g :: gs).getLast? = some last := by
        simpa [List.getLast?_cons_cons] using hlast
      have hmem : last ∈ g :: gs := List.mem_of_getLast?_eq_some hlast2
      have hfl : cursorAfter f last := hf last (List.mem_append_left _ hmem)
      have hpf : cursorPred (cursorOf last) f = false := cursorPred_asymm hfl
      rw [List.cons_append, List.filter_cons_of_neg (by simp [hpf])]
      exact ih ((g :: gs) ++ rest) rest htail rfl last hlast2

theorem take_append_drop_len (l : List Video) (n : Nat) :
    l.take n ++ l.drop (l.take n).length = l := by
  induction l generalizing n with
  | nil => simp
  | cons a t ih =>
    cases n with
    | zero => simp
    | succ m =>
      simp only [List.take_succ_cons, List.length_cons, List.drop_succ_cons,
        List.cons_append, ih]

theorem collectLikesPages_drop (rows : List Video) (limit : Nat) (hl : 0 < limit)
    (hs : rows.Pairwise cursorAfter) :
    ∀ fuel k cursor, rows.length - k ≤ fuel →
      applyCursor rows cursor = rows.drop k →
      collectLikesPages rows limit fuel cursor = rows.drop k := by
  intro fuel
  induction fuel with
  | zero =>
    intro k cursor hfk _
    have hk : rows.length ≤ k := by omega
    rw [List.drop_eq_nil_of_le hk]
    rfl
  | succ fuel ih =>
    intro k cursor hfk hcur
    by_cases hre : rows.drop k = []
    · have hpage : ListLikesCountWithCursor rows limit cursor = [] := by
        simp [ListLikesCountWithCursor, hcur, hre]
      simp [collectLikesPages, hpage, hre]
    · have hpage : ListLikesCountWithCursor rows limit cursor =
          (rows.drop k).take limit := by
        simp [ListLikesCountWithCursor, hcur]
      have hne : (rows.drop k).take limit ≠ [] := by
        obtain ⟨m, rfl⟩ : ∃ m, limit = m + 1 := ⟨limit - 1, by omega⟩
        cases hdk : rows.drop k with
        | nil => exact absurd hdk hre
        | cons r t => simp
      obtain ⟨last, hlast⟩ : ∃ last, ((rows.drop k).take limit).getLast? = some last := by
        cases hgl : ((rows.drop k).take limit).getLast? with
        | none => exact absurd (List.getLast?_eq_none_iff.1 hgl) hne
        | some b => exact ⟨b, rfl⟩
      have hsplit : rows = (rows.take k ++ (rows.drop k).take limit) ++
          (rows.drop k).drop ((rows.drop k).take limit).length := by
        rw [List.append_assoc, take_append_drop_len (rows.drop k) limit,
          List.take_append_drop]
      have hfront : (rows.take k ++ (rows.drop k).take limit).getLast? = some last := by
        rw [List.getLast?_append_of_ne_nil _ hne]
        exact hlast
      have hfilter := filter_cursorOf_last _ rows _ hs hsplit last hfront
      have hplen : 0 < ((rows.drop k).take limit).length := by
        cases hp : (rows.drop k).take limit with
        | nil => exact absurd hp hne
        | cons r t => simp
      have hdd : (rows.drop k).drop ((rows.drop k).take limit).length =
          rows.drop (k + ((rows.drop k).take limit).length) :=
        List.drop_drop _ _ _
      have happly2 : applyCursor rows (some (cursorOf last)) =
          rows.drop (k + ((rows.drop k).take limit).length) := by
        rw [applyCursor, hfilter, hdd]
      have hlenbound : ((rows.drop k).take limit).length ≤ rows.length - k := by
        rw [List.length_take, List.length_drop]
        omega
      have hrec := ih (k + ((rows.drop k).take limit).length) (some (cursorOf last))
        (by omega) happly2
      simp only [collectLikesPages, hpage, hlast]
      rw [hrec, ← hdd, take_append_drop_len]

/-- C2: for any table of videos presented in the strict total order
`(likes_count DESC, id DESC)` and any `limit > 0`, concatenating the
pages produced by repeatedly calling the likes-ranked listing with the
returned cursor pair `(next_likes_count_before, next_id_before)` yields
exactly the full table — every row exactly once, in order, with no
skips and no duplicates. -/
theorem C2_likes_cursor_pagination_complete (rows : List Video) (limit fuel : Nat)
    (hl : 0 < limit) (hs : rows.Pairwise cursorAfter) (hf : rows.length ≤ fuel) :
    collectLikesPages rows limit fuel none = rows := by
  have h := collectLikesPages_drop rows limit hl hs fuel 0 none (by omega) (by rfl)
  simpa using h

/-- Witness for C2: five videos with likes `[5,3,3,1,1]` enumerated in
`(likes_count DESC, id DESC)` order, paged with `limit = 2` over three
round trips, reproduce the whole table. -/
theorem C2_likes_cursor_pagination_complete_witness :
    collectLikesPages
        [⟨10, 5, 0⟩, ⟨21, 3, 0⟩, ⟨20, 3, 0⟩, ⟨31, 1, 0⟩, ⟨30, 1, 0⟩] 2 5 none =
      [⟨10, 5, 0⟩, ⟨21, 3, 0⟩, ⟨20, 3, 0⟩, ⟨31, 1, 0⟩, ⟨30, 1, 0⟩] :=
  C2_likes_cursor_pagination_complete _ 2 5 (by decide) (by decide) (by decide)

/-! ### Popularity snapshot paging (claim C9) -/

/-- `FeedRepository.GetByIDs` (`feed/repo.go`, lines 241-255):
`SELECT * FROM videos WHERE id IN ids` (empty id list short-circuits to
an empty result), rows returned in table order. -/
def GetByIDs (db : List Video) (ids : List Nat) : List Video :=
  if ids.isEmpty then [] else db.filter fun v => ids.contains v.id

/-- `ZREVRANGE dest offset (offset+limit-1)` over the merged snapshot:
the snapshot is represented by its member ids in descending score
order, and the window is the requested slice of it. -/
def ZRevRangeWindow (snapshot : List Nat) (offset limit : Nat) : List Nat :=
  (snapshot.drop offset).take limit

/-- Response of `/feed/listByPopularity` restricted to the fields
claim C9 constrains. -/
structure ListByPopularityResponse where
  videoList : List Video
  nextOffset : Nat
  hasMore : Bool
  deriving Repr, DecidableEq

/-- The ordered page items of the cached-snapshot path
(`feed/handler.go`, lines 866-893): parse the window's member ids,
dropping non-positive ones; `GetByIDs`-load the rows; index them by id;
and keep, in window order, only the members whose row was found —
a member whose video row no longer exists is silently omitted. -/
def snapshotPageItems (db : List Video) (snapshot : List Nat)
    (offset limit : Nat) : List Video :=
  let ids := (ZRevRangeWindow snapshot offset limit).filter fun u => decide (0 < u)
  ids.filterMap fun i => (GetByIDs db ids).find? fun v => v.id == i

/-- `FeedService.ListByPopularity` cached-snapshot path
(`feed/handler.go`, lines 847-921): an empty window with `offset > 0`
answers an empty page with `has_more = false` and an unchanged
`next_offset`; an empty window with `offset = 0` falls through to the
DB fallback (`none` here); otherwise the page is `snapshotPageItems`
with `next_offset = offset + len(items)` and
`has_more = (len(items) == limit)`. -/
def ListByPopularityFromSnapshot (db : List Video) (snapshot : List Nat)
    (offset limit : Nat) : Option ListByPopularityResponse :=
  let members := ZRevRangeWindow snapshot offset limit
  if members.isEmpty then
    if 0 < offset then some ⟨[], offset, false⟩ else none
  else
    some ⟨snapshotPageItems db snapshot offset limit,
      offset + (snapshotPageItems db snapshot offset limit).length,
      (snapshotPageItems db snapshot offset limit).length == limit⟩

theorem length_filterMap_lt {α β : Type} (l : List α) (f : α → Option β) (a : α)
    (ha : a ∈ l) (hf : f a = none) : (l.filterMap f).length < l.length := by
  induction l with
  | nil => cases ha
  | cons x xs ih =>
    rcases List.mem_cons.1 ha with rfl | hmem
    · simp only [List.filterMap_cons, hf, List.length_cons]
      exact Nat.lt_succ_of_le (List.length_filterMap_le f xs)
    · simp only [List.filterMap_cons, List.length_cons]
      cases hfx : f x with
      | none => exact Nat.lt_succ_of_lt (ih hmem)
      | some b => simpa using Nat.succ_lt_succ (ih hmem)

theorem mem_db_of_mem_getByIDs {db : List Video} {ids : List Nat} {v : Video}
    (h : v ∈ GetByIDs db ids) : v ∈ db := by
  unfold GetByIDs at h
  by_cases hids : ids.isEmpty
  · simp [hids] at h
  · simp only [hids, if_neg, Bool.false_eq_true, not_false_iff] at h
    exact (List.mem_filter.1 h).1

/-- C9: when the popularity page is served from the cached snapshot and
some member of the selected window has no matching video row, that
member is silently omitted: with a full window of `limit` members, the
page carries fewer than `limit` items, `has_more` is `false`,
`next_offset` advances only by the number of returned items, the
missing id is absent from the page — even though further members exist
in the snapshot beyond the window. -/
theorem C9_snapshot_missing_row_short_page (db : List Video) (snapshot : List Nat)
    (offset limit m : Nat)
    (hm : m ∈ ZRevRangeWindow snapshot offset limit) (hmpos : 0 < m)
    (hmiss : ∀ v ∈ db, v.id ≠ m)
    (hfull : (ZRevRangeWindow snapshot offset limit).length = limit)
    (hmore : offset + limit < snapshot.length) :
    ∃ resp, ListByPopularityFromSnapshot db snapshot offset limit = some resp ∧
      resp.videoList.length < limit ∧
      resp.hasMore = false ∧
      resp.nextOffset = offset + resp.videoList.length ∧
      (∀ v ∈ resp.videoList, v.id ≠ m) ∧
      snapshot.drop (offset + limit) ≠ [] := by
  have hlpos : 0 < limit := by
    rcases Nat.eq_zero_or_pos limit with h0 | h
    · exfalso
      have hwnil : ZRevRangeWindow snapshot offset limit = [] := by
        rw [← List.length_eq_zero, hfull, h0]
      rw [hwnil] at hm
      exact List.not_mem_nil m hm
    · exact h
  have hne : (ZRevRangeWindow snapshot offset limit).isEmpty = false := by
    cases hw : ZRevRangeWindow snapshot offset limit with
    | nil =>
      rw [hw] at hm
      exact absurd hm (List.not_mem_nil m)
    | cons x t => rfl
  have heq : ListByPopularityFromSnapshot db snapshot offset limit =
      some ⟨snapshotPageItems db snapshot offset limit,
        offset + (snapshotPageItems db snapshot offset limit).length,
        (snapshotPageItems db snapshot offset limit).length == limit⟩ := by
    simp [ListByPopularityFromSnapshot, hne]
  have hmids : m ∈ (ZRevRangeWindow snapshot offset limit).filter
      fun u => decide (0 < u) :=
    List.mem_filter.2 ⟨hm, by simpa using hmpos⟩
  have hfnone :
      (GetByIDs db ((ZRevRangeWindow snapshot offset limit).filter
          fun u => decide (0 < u))).find? (fun v => v.id == m) = none := by
    apply List.find?_eq_none.2
    intro v hv
    simpa using hmiss v (mem_db_of_mem_getByIDs hv)
  have hlen : (snapshotPageItems db snapshot offset limit).length < limit := by
    calc (snapshotPageItems db snapshot offset limit).length
        < ((ZRevRangeWindow snapshot offset limit).filter
            fun u => decide (0 < u)).length :=
          length_filterMap_lt _ _ m hmids hfnone
      _ ≤ (ZRevRangeWindow snapshot offset limit).length :=
          List.length_filter_le _ _
      _ = limit := hfull
  refine ⟨_, heq, hlen, ?_, rfl, ?_, ?_⟩
  · simpa using Nat.ne_of_lt hlen
  · intro v hv
    rcases List.mem_filterMap.1 hv with ⟨i, _, hfind⟩
    exact hmiss v (mem_db_of_mem_getByIDs (List.mem_of_find?_eq_some hfind))
  · apply List.ne_nil_of_length_pos
    rw [List.length_drop]
    omega

/-- Witness for C9: snapshot `[9, 7, 8]`, window `offset = 0`,
`limit = 2` selects members `[9, 7]`; the row for member 7 is missing
from the table, so the page is `[⟨9,…⟩]` with `has_more = false` and
`next_offset = 1`, while member 8 still waits beyond the window. -/
theorem C9_snapshot_missing_row_short_page_witness :
    ∃ resp, ListByPopularityFromSnapshot [⟨9, 0, 5⟩, ⟨8, 0, 1⟩] [9, 7, 8] 0 2 =
        some resp ∧
      resp.videoList.length < 2 ∧
      resp.hasMore = false ∧
      resp.nextOffset = 0 + resp.videoList.length ∧
      (∀ v ∈ resp.videoList, v.id ≠ 7) ∧
      ([9, 7, 8] : List Nat).drop (0 + 2) ≠ [] :=
  C9_snapshot_missing_row_short_page [⟨9, 0, 5⟩, ⟨8, 0, 1⟩] [9, 7, 8] 0 2 7
    (by decide) (by decide) (by decide) (by decide) (by decide)

end Vloop
